import Mathlib

/-!
Shallow embedding of the user-state engine of bot_script.py.

Conventions of the embedding:
* Timestamps are integers counting whole seconds (the code stores ISO-8601
  strings and subtracts aware datetimes; at whole-second granularity the
  int(...) truncation of total_seconds() is exact).
* A stored optional timestamp field is a TsField: `null` models Python None
  (falsy), `valid t` models a parseable ISO string denoting time t, and
  `malformed` models a non-empty string on which datetime.fromisoformat
  raises ValueError.
* Python ints are unbounded, so numeric record fields are Int.
* Randomness is passed in as explicit arguments (the draw r of
  random.randint(1, total_weight) and the bonus of random.randint(100, 500)).
-/

/-- Optional stored timestamp field, as the code sees it after the
truthiness test and datetime.fromisoformat. -/
inductive TsField where
  | null
  | valid (t : Int)
  | malformed
deriving DecidableEq, Repr

/-- One user record, with the exact fields created by ensure_user_data
(bot_script.py lines 114-131). -/
structure UserRecord where
  money : Int
  level : Int
  exp : Int
  inventory : List String
  last_daily : TsField
  item : String
  total_online : Int
  last_online : TsField
  join_date : Int
  command_usage : Int
deriving DecidableEq, Repr

/-- The record ensure_user_data creates for a fresh user id at time 0. -/
def baseUser : UserRecord :=
  { money := 0, level := 1, exp := 0, inventory := [], last_daily := .null,
    item := "", total_online := 0, last_online := .null, join_date := 0,
    command_usage := 0 }

/-- The in-memory store user_data: an insertion-ordered map from user id
to record (Python dicts preserve insertion order). -/
abbrev Store := List (String × UserRecord)

/-! ### Daily reward (bot_script.py lines 264-319) -/

/-- The early-return gate of daily_reward (lines 271-282): the claim is
rejected exactly when last_daily is a parseable timestamp less than
timedelta(days:=1) = 86400 seconds ago.  None is falsy and skips the
check; an unparseable string raises ValueError, which is caught and
logged, falling through to the reward. -/
def dailyRejected (now : Int) (u : UserRecord) : Bool :=
  match u.last_daily with
  | .valid t => decide (now - t < 86400)
  | _ => false

/-- The mutation performed by an accepted daily claim (lines 284-300):
money += 100 + level*10, exp += 25, last_daily := now,
command_usage += 1; then a single level-up check against the pre-check
level: if exp >= level*100 then level += 1, exp := 0 and
money += newLevel*50. -/
def claimReward (now : Int) (u : UserRecord) : UserRecord :=
  let total_reward := 100 + u.level * 10
  let u1 : UserRecord :=
    { u with money := u.money + total_reward, exp := u.exp + 25,
             last_daily := TsField.valid now,
             command_usage := u.command_usage + 1 }
  let level_up_exp := u1.level * 100
  if u1.exp ≥ level_up_exp then
    let level2 := u1.level + 1
    { u1 with level := level2, exp := 0, money := u1.money + level2 * 50 }
  else u1

/-- The daily_reward command on one record: either the rejection early
return (record unchanged, flag false) or the reward (flag true). -/
def daily_reward (now : Int) (u : UserRecord) : UserRecord × Bool :=
  if dailyRejected now u then (u, false) else (claimReward now u, true)

/-- The level=1, exp=90 record of the level-up example. -/
def exampleUserC1 : UserRecord :=
  { baseUser with level := 1, exp := 90 }

/-- C1 counterexample: from level=1, exp=90 an accepted daily claim gives
level=2 and a total money delta of 210 as claimed, but exp becomes 0,
not 15: the code resets exp to 0 on level-up instead of subtracting the
crossed threshold. -/
theorem c1_counterexample :
    (daily_reward 1000 exampleUserC1).2 = true ∧
    (daily_reward 1000 exampleUserC1).1.level = 2 ∧
    (daily_reward 1000 exampleUserC1).1.money = exampleUserC1.money + 210 ∧
    (daily_reward 1000 exampleUserC1).1.exp = 0 ∧
    ¬ (daily_reward 1000 exampleUserC1).1.exp = 15 := by
  decide

/-- C1 (amended): an accepted daily claim adds 100 + level*10 money and
25 exp; if the new exp reaches level*100, the level increments by
exactly one (single check, not a loop), exp is reset to 0 (not reduced
by the threshold), and a bonus of newLevel*50 money is added.  From
level=1, exp=90 this gives level=2, exp=0, money delta 210. -/
theorem c1_daily_levelup (now : Int) (u : UserRecord)
    (h : (daily_reward now u).2 = true) :
    (daily_reward now u).1 = claimReward now u ∧
    (u.exp + 25 ≥ u.level * 100 →
      (claimReward now u).level = u.level + 1 ∧
      (claimReward now u).exp = 0 ∧
      (claimReward now u).money
        = u.money + (100 + u.level * 10) + (u.level + 1) * 50) ∧
    (u.exp + 25 < u.level * 100 →
      (claimReward now u).level = u.level ∧
      (claimReward now u).exp = u.exp + 25 ∧
      (claimReward now u).money = u.money + (100 + u.level * 10)) := by
  refine ⟨?_, ?_, ?_⟩
  · unfold daily_reward at h ⊢
    by_cases hd : dailyRejected now u <;> simp [hd] at h ⊢
  · intro hle
    simp only [claimReward]
    rw [if_pos]
    · exact ⟨rfl, rfl, by ring⟩
    · simpa using hle
  · intro hlt
    simp only [claimReward]
    rw [if_neg]
    · exact ⟨rfl, rfl, rfl⟩
    · simpa using Int.not_le.mpr hlt

/-- Witness for c1_daily_levelup at the level=1, exp=90 example. -/
theorem c1_daily_levelup_witness :
    (claimReward 1000 exampleUserC1).level = 2 ∧
    (claimReward 1000 exampleUserC1).exp = 0 ∧
    (claimReward 1000 exampleUserC1).money
      = exampleUserC1.money + (100 + 1 * 10) + (1 + 1) * 50 := by
  have h := c1_daily_levelup 1000 exampleUserC1 (by decide)
  exact h.2.1 (by decide)

/-! ### Presence tracking (bot_script.py lines 503-530, on_presence_update) -/

/-- One presence event against one record.  beforeOnline and afterOnline
are the truth of (status == discord.Status.online) before and after.
Coming online stamps last_online := now.  Going offline, when last_online
is a parseable timestamp t, adds now - t seconds to total_online and
clears last_online; a None last_online skips the branch and a malformed
one raises ValueError which is caught, leaving the record unchanged. -/
def presence_update (now : Int) (beforeOnline afterOnline : Bool)
    (u : UserRecord) : UserRecord :=
  if !beforeOnline && afterOnline then
    { u with last_online := TsField.valid now }
  else if beforeOnline && !afterOnline then
    match u.last_online with
    | .valid t =>
        { u with total_online := u.total_online + (now - t),
                 last_online := TsField.null }
    | _ => u
  else u

/-- A record 100 accumulated seconds in, with a session opened at time 50. -/
def exampleUserC2 : UserRecord :=
  { baseUser with total_online := 100, last_online := .valid 50 }

/-- C2 counterexample: with last_online = 50 and the clock skewed back to
now = 40, the Online-to-Offline transition adds the negative elapsed
-10 and total_online drops from 100 to 90: the code never clamps the
elapsed time to be non-negative, so total_online is not monotonically
non-decreasing under clock skew. -/
theorem c2_counterexample :
    (presence_update 40 true false exampleUserC2).total_online = 90 ∧
    ¬ exampleUserC2.total_online
        ≤ (presence_update 40 true false exampleUserC2).total_online := by
  decide

/-- C2 (amended): the Online-to-Offline transition adds the whole-second
elapsed now - t without any non-negativity clamp, so total_online is
non-decreasing only when now is not before the session start; the
transition clears last_online, and a further Offline event with no
intervening Online event (whether or not the status was still reported
online) leaves the record unchanged. -/
theorem c2_offline_accrual (now now2 t : Int) (u : UserRecord)
    (hses : u.last_online = TsField.valid t) (hskew : t ≤ now) :
    (presence_update now true false u).total_online
        = u.total_online + (now - t) ∧
    u.total_online ≤ (presence_update now true false u).total_online ∧
    (presence_update now true false u).last_online = TsField.null ∧
    presence_update now2 true false (presence_update now true false u)
        = presence_update now true false u ∧
    presence_update now2 false false (presence_update now true false u)
        = presence_update now true false u := by
  simp [presence_update, hses]
  omega

/-- Witness for c2_offline_accrual: session opened at 50, closed at 175,
adds exactly 125 seconds. -/
theorem c2_offline_accrual_witness :
    (presence_update 175 true false exampleUserC2).total_online
        = exampleUserC2.total_online + (175 - 50) ∧
    (presence_update 175 true false exampleUserC2).last_online
        = TsField.null := by
  have h := c2_offline_accrual 175 200 50 exampleUserC2 (by decide) (by decide)
  exact ⟨h.1, h.2.2.1⟩

/-! ### Profile read path (bot_script.py lines 216-262, check_profile) -/

/-- The check_profile command on the target record: increments
command_usage (line 226), then computes the displayed online total as
total_online plus, when last_online holds a parseable timestamp t, the
live-session elapsed now - t (a malformed timestamp only logs a warning
and contributes nothing).  Returns the mutated record and the displayed
total in seconds. -/
def check_profile (now : Int) (u : UserRecord) : UserRecord × Int :=
  let u1 : UserRecord := { u with command_usage := u.command_usage + 1 }
  let displayed :=
    match u.last_online with
    | .valid t => u.total_online + (now - t)
    | _ => u.total_online
  (u1, displayed)

/-- C3 counterexample: check_profile does not leave every field of the
record unchanged: it increments command_usage, so the returned record
differs from the input. -/
theorem c3_counterexample :
    (check_profile 200 exampleUserC2).1.command_usage
        = exampleUserC2.command_usage + 1 ∧
    ¬ (check_profile 200 exampleUserC2).1 = exampleUserC2 := by
  decide

/-- C3 (amended): the profile read path reports total_online plus the
live-session elapsed seconds (when a session is in progress), never
folds the live session into total_online, and leaves every field of the
record unchanged except command_usage, which it increments by one. -/
theorem c3_profile_read (now : Int) (u : UserRecord) :
    (check_profile now u).2
        = u.total_online + (match u.last_online with
                            | TsField.valid t => now - t
                            | _ => 0) ∧
    (check_profile now u).1.money = u.money ∧
    (check_profile now u).1.level = u.level ∧
    (check_profile now u).1.exp = u.exp ∧
    (check_profile now u).1.inventory = u.inventory ∧
    (check_profile now u).1.last_daily = u.last_daily ∧
    (check_profile now u).1.item = u.item ∧
    (check_profile now u).1.total_online = u.total_online ∧
    (check_profile now u).1.last_online = u.last_online ∧
    (check_profile now u).1.join_date = u.join_date ∧
    (check_profile now u).1.command_usage = u.command_usage + 1 := by
  cases hlo : u.last_online <;>
    simp [check_profile, hlo]

/-! ### Gacha (bot_script.py lines 321-384) -/

/-- The fixed weighted item table (lines 341-348), weights summing to 100. -/
def gachaItems : List (String × Nat) :=
  [("🍞 ขนมปัง", 30), ("🧪 พลังฟื้นฟู", 25), ("💎 เพชรเล็ก", 20),
   ("🎁 กล่องลึกลับ", 15), ("⚡ กระสุนไม่จำกัด", 8), ("💳 บัตรเงิน", 2)]

/-- The cumulative-weight walk (lines 353-359): accumulate weights and
select the first entry whose running total reaches the draw r; none
models the loop finishing with selected_item never bound. -/
def selectWalk (r : Nat) : List (String × Nat) → Nat → Option String
  | [], _ => none
  | (item, w) :: rest, acc =>
      if r ≤ acc + w then some item else selectWalk r rest (acc + w)

/-- Weighted selection for a draw r of random.randint(1, total_weight). -/
def selectItem (r : Nat) : Option String := selectWalk r gachaItems 0

/-- Substring containment on character lists, the meaning of the Python
test (needle in haystack) for strings. -/
def subOf (needle : List Char) : List Char → Bool
  | [] => needle.isEmpty
  | c :: rest => needle.isPrefixOf (c :: rest) || subOf needle rest

/-- The jackpot test of line 367: the Thai word for money-card occurs in
the selected item label. -/
def isJackpot (s : String) : Bool := subOf "บัตรเงิน".data s.data

/-- Outcome reported by the gacha command. -/
inductive GachaOutcome where
  | insufficientFunds (required available : Int)
  | drawn (item : String) (bonusMoney : Int)
deriving DecidableEq, Repr

/-- The gacha command on one record (lines 329-383).  r is the draw of
random.randint(1, 100) and bonusRoll the draw of random.randint(100, 500)
used only on a jackpot.  A balance below the cost of 50 returns the
record unchanged with an insufficient-funds message; otherwise 50 money
is deducted, command_usage incremented, the drawn item appended to the
inventory, and the jackpot bonus added when the jackpot label is drawn.
none models the NameError Python would raise if the walk selected
nothing (impossible for r in range, claim C10). -/
def gacha (u : UserRecord) (r : Nat) (bonusRoll : Int) :
    Option (UserRecord × GachaOutcome) :=
  if u.money < 50 then some (u, .insufficientFunds 50 u.money)
  else
    match selectItem r with
    | none => none
    | some item =>
      let u1 : UserRecord :=
        { u with money := u.money - 50, command_usage := u.command_usage + 1,
                 inventory := u.inventory ++ [item] }
      if isJackpot item then
        some ({ u1 with money := u1.money + bonusRoll }, .drawn item bonusRoll)
      else some (u1, .drawn item 0)

/-- Any draw in the range 1 to 100 of the summed weights selects an item. -/
lemma selectItem_total : ∀ r : Nat, r ≤ 100 → 1 ≤ r →
    (selectItem r).isSome = true := by
  decide

/-- The jackpot test holds exactly for the jackpot entry of the table. -/
lemma gacha_jackpot_iff :
    ∀ it ∈ gachaItems.map Prod.fst,
      (isJackpot it = true ↔ it = "💳 บัตรเงิน") := by
  decide

/-- A successful walk only returns labels of the table. -/
lemma selectWalk_mem {r : Nat} {l : List (String × Nat)} {acc : Nat}
    {item : String} (h : selectWalk r l acc = some item) :
    item ∈ l.map Prod.fst := by
  induction l generalizing acc with
  | nil => simp [selectWalk] at h
  | cons p rest ih =>
    obtain ⟨it, w⟩ := p
    simp only [selectWalk] at h
    split at h
    · simp only [Option.some.injEq] at h
      simp [h]
    · simpa using Or.inr (ih h)

/-- C4: a gacha draw with fewer than 50 money signals insufficient funds
with the required and available amounts and leaves the record unchanged;
otherwise it deducts exactly 50, appends exactly one item label to the
inventory, and adds the bonus roll exactly when the drawn label is the
jackpot entry. -/
theorem c4_gacha (u : UserRecord) (r : Nat) (b : Int)
    (hr1 : 1 ≤ r) (hr2 : r ≤ 100) (_hb1 : 100 ≤ b) (_hb2 : b ≤ 500) :
    (u.money < 50 →
      gacha u r b = some (u, GachaOutcome.insufficientFunds 50 u.money)) ∧
    (¬ u.money < 50 →
      ∃ item u1, selectItem r = some item ∧
        gacha u r b
          = some (u1, GachaOutcome.drawn item (if isJackpot item then b else 0)) ∧
        u1.money = u.money - 50 + (if isJackpot item then b else 0) ∧
        u1.inventory = u.inventory ++ [item] ∧
        (isJackpot item = true ↔ item = "💳 บัตรเงิน")) := by
  constructor
  · intro hm
    simp [gacha, hm]
  · intro hm
    obtain ⟨item, hitem⟩ :=
      Option.isSome_iff_exists.mp (selectItem_total r hr2 hr1)
    have hiff := gacha_jackpot_iff item (selectWalk_mem hitem)
    refine ⟨item, ?_, hitem, ?_, ?_, ?_, hiff⟩
    · exact if isJackpot item then
        { u with money := u.money - 50 + b,
                 command_usage := u.command_usage + 1,
                 inventory := u.inventory ++ [item] }
      else
        { u with money := u.money - 50,
                 command_usage := u.command_usage + 1,
                 inventory := u.inventory ++ [item] }
    all_goals
      cases hj : isJackpot item <;>
        simp [gacha, hm, hitem, hj]

/-- Witness for c4_gacha: a balance of 30 is rejected with the record
unchanged. -/
theorem c4_gacha_witness :
    gacha { baseUser with money := 30 } 1 250
      = some ({ baseUser with money := 30 },
              GachaOutcome.insufficientFunds 50 30) := by
  have h := c4_gacha { baseUser with money := 30 } 1 250
    (by decide) (by decide) (by decide) (by decide)
  exact h.1 (by decide)

/-- C10: every draw r in the range 1 to 100 (the sum of the table weights
30+25+20+15+8+2) selects an entry before the table is exhausted, so the
selected item is always defined, and a funded gacha draw appends exactly
one item to the inventory. -/
theorem c10_gacha_selection (r : Nat) (hr1 : 1 ≤ r) (hr2 : r ≤ 100) :
    (selectItem r).isSome = true ∧
    ∀ (u : UserRecord) (b : Int), ¬ u.money < 50 →
      ∃ item u1 o, selectItem r = some item ∧ gacha u r b = some (u1, o) ∧
        u1.inventory = u.inventory ++ [item] ∧
        u1.inventory.length = u.inventory.length + 1 := by
  have hsome := selectItem_total r hr2 hr1
  obtain ⟨item, hitem⟩ := Option.isSome_iff_exists.mp hsome
  refine ⟨hsome, ?_⟩
  intro u b hm
  cases hj : isJackpot item with
  | true =>
    refine ⟨item,
      { u with money := u.money - 50 + b,
               command_usage := u.command_usage + 1,
               inventory := u.inventory ++ [item] },
      GachaOutcome.drawn item b, hitem, ?_, rfl, by simp⟩
    simp [gacha, hm, hitem, hj]
  | false =>
    refine ⟨item,
      { u with money := u.money - 50,
               command_usage := u.command_usage + 1,
               inventory := u.inventory ++ [item] },
      GachaOutcome.drawn item 0, hitem, ?_, rfl, by simp⟩
    simp [gacha, hm, hitem, hj]

/-- Witness for c10_gacha_selection at the top draw r = 100. -/
theorem c10_gacha_selection_witness :
    (selectItem 100).isSome = true := by
  exact (c10_gacha_selection 100 (by decide) (by decide)).1

/-! ### Daily-reward gating (bot_script.py lines 271-282) -/

/-- C5: on a record whose last_daily is not a malformed string, a daily
claim is accepted exactly when last_daily is null or at least 86400
seconds old, and a second claim within 24 hours of a successful one is
rejected with the record returned unchanged (so money, level and exp
are unchanged). -/
theorem c5_daily_gate (now now2 : Int) (u : UserRecord)
    (h : u.last_daily ≠ TsField.malformed) :
    ((daily_reward now u).2 = true ↔
      u.last_daily = TsField.null ∨
        ∃ t, u.last_daily = TsField.valid t ∧ 86400 ≤ now - t) ∧
    (now2 - now < 86400 →
      daily_reward now2 (claimReward now u) = (claimReward now u, false)) := by
  have hld : (claimReward now u).last_daily = TsField.valid now := by
    simp only [claimReward]
    split <;> rfl
  constructor
  · cases hldu : u.last_daily with
    | null => simp [daily_reward, dailyRejected, hldu]
    | malformed => exact absurd hldu h
    | valid t =>
      simp only [daily_reward, dailyRejected, hldu]
      constructor
      · intro htrue
        refine Or.inr ⟨t, rfl, ?_⟩
        by_cases hlt : now - t < 86400
        · simp [hlt] at htrue
        · omega
      · intro hor
        rcases hor with hnull | ⟨t2, ht2, hle⟩
        · exact absurd hnull (by simp)
        · injection ht2 with h12
          subst h12
          have hnl : ¬ now - t < 86400 := by omega
          simp [hnl]
  · intro hlt
    simp [daily_reward, dailyRejected, hld, hlt]

/-- Witness for c5_daily_gate: a fresh record claims at time 0 and is
rejected unchanged when claiming again at time 1000. -/
theorem c5_daily_gate_witness :
    (daily_reward 0 baseUser).2 = true ∧
    daily_reward 1000 (claimReward 0 baseUser)
      = (claimReward 0 baseUser, false) := by
  have h := c5_daily_gate 0 1000 baseUser (by decide)
  exact ⟨h.1.mpr (Or.inl rfl), h.2 (by decide)⟩

/-- C9: a record whose stored last_daily is a non-null but unparseable
string is treated as eligible: the ValueError is caught, the claim
proceeds with the full reward mutation, and last_daily is overwritten
with the current time. -/
theorem c9_daily_malformed (now : Int) (u : UserRecord)
    (h : u.last_daily = TsField.malformed) :
    daily_reward now u = (claimReward now u, true) ∧
    (claimReward now u).last_daily = TsField.valid now := by
  constructor
  · simp [daily_reward, dailyRejected, h]
  · simp only [claimReward]
    split <;> rfl

/-- Witness for c9_daily_malformed on a concrete malformed record. -/
theorem c9_daily_malformed_witness :
    daily_reward 500 { baseUser with last_daily := TsField.malformed }
      = (claimReward 500 { baseUser with last_daily := TsField.malformed },
         true) := by
  exact (c9_daily_malformed 500 _ rfl).1

/-! ### Rate limiter (bot_script.py lines 46-55) -/

/-- The stored per-identifier timestamp: user_last_command is a
defaultdict(float), so an identifier with no entry reads as 0.0 (and the
defaultdict access inserts that same 0.0, which changes no lookup). -/
def lastCommandTime (m : List (Nat × Int)) (i : Nat) : Int :=
  ((m.find? (fun p => p.1 == i)).map Prod.snd).getD 0

/-- is_rate_limited(user_id, cooldown): returns true (limited) with the
map unchanged when now - last < cooldown, else stamps now for the
identifier and returns false (admitted). -/
def is_rate_limited (m : List (Nat × Int)) (i : Nat) (now cooldown : Int) :
    Bool × List (Nat × Int) :=
  if now - lastCommandTime m i < cooldown then (true, m)
  else (false, (i, now) :: m)

/-- C6 counterexample: identifier 7 has no previous admitted call (the
map is empty), yet at now = 1 with cooldown 3 the call is rejected,
because the missing entry reads as timestamp 0 and 1 - 0 < 3: a
never-called identifier is not unconditionally admitted. -/
theorem c6_counterexample :
    List.find? (fun p => p.1 == 7) ([] : List (Nat × Int)) = none ∧
    (is_rate_limited [] 7 1 3).1 = true ∧
    (is_rate_limited [] 7 1 3).2 = [] := by
  decide

/-- C6 (amended): a call is admitted exactly when now minus the stored
timestamp (0 for a never-seen identifier) is at least the cooldown; an
admitted call stamps the current time for the identifier, a rejected
call leaves the map unchanged, and an identifier with no previous
admitted call is admitted whenever now itself is at least the cooldown
(always the case for wall-clock seconds since the epoch). -/
theorem c6_rate_limiter (m : List (Nat × Int)) (i : Nat)
    (now cooldown : Int) :
    ((is_rate_limited m i now cooldown).1 = false ↔
        cooldown ≤ now - lastCommandTime m i) ∧
    ((is_rate_limited m i now cooldown).1 = false →
        lastCommandTime (is_rate_limited m i now cooldown).2 i = now) ∧
    ((is_rate_limited m i now cooldown).1 = true →
        (is_rate_limited m i now cooldown).2 = m) ∧
    (m.find? (fun p => p.1 == i) = none → cooldown ≤ now →
        (is_rate_limited m i now cooldown).1 = false) := by
  by_cases hc : now - lastCommandTime m i < cooldown
  · refine ⟨?_, ?_, ?_, ?_⟩
    · simp only [is_rate_limited, if_pos hc]
      constructor
      · intro hff
        exact absurd hff (by simp)
      · intro hle
        omega
    · intro hfalse
      simp [is_rate_limited, hc] at hfalse
    · intro _
      simp [is_rate_limited, hc]
    · intro hnone hle
      have h0 : lastCommandTime m i = 0 := by
        simp [lastCommandTime, hnone]
      rw [h0] at hc
      exact absurd hle (by omega)
  · refine ⟨?_, ?_, ?_, ?_⟩
    · simp only [is_rate_limited, if_neg hc]
      constructor
      · intro _
        omega
      · intro _
        trivial
    · intro _
      simp only [is_rate_limited, if_neg hc]
      simp [lastCommandTime, List.find?]
    · intro htrue
      simp [is_rate_limited, hc] at htrue
    · intro _ _
      simp [is_rate_limited, hc]

/-- Witness for c6_rate_limiter: id 7 last admitted at 100 is admitted
again at 104 with cooldown 3, and a rejected call at 101 leaves the map
unchanged. -/
theorem c6_rate_limiter_witness :
    (is_rate_limited [(7, 100)] 7 104 3).1 = false ∧
    (is_rate_limited [(7, 100)] 7 101 3).2 = [(7, 100)] := by
  exact ⟨(c6_rate_limiter [(7, 100)] 7 104 3).1.mpr (by decide),
         (c6_rate_limiter [(7, 100)] 7 101 3).2.2.1 (by decide)⟩

/-! ### Persistence load path (bot_script.py lines 75-95, load_data) -/

/-- The slice of the filesystem load_data touches: the primary snapshot
(none when DATA_FILE does not exist, otherwise its raw text) and the
quarantine backups, keyed by the capture timestamp n standing for the
file name user_data_backup_n.json, a name the integer determines
injectively. -/
structure FileSys where
  dataFile : Option String
  quarantine : List (Int × String)
deriving DecidableEq, Repr

/-- load_data: no snapshot gives the empty store; a snapshot that
json.load parses is returned; an unreadable or unparsable snapshot is
caught, the bad file is renamed to the quarantine name stamped with
int(time.time()), and the empty store is returned.  parse abstracts
json.load (none models any exception).  The function is total: no
exception escapes to the caller. -/
def load_data (parse : String → Option Store) (now : Int) (fs : FileSys) :
    Store × FileSys :=
  match fs.dataFile with
  | none => ([], fs)
  | some raw =>
    match parse raw with
    | some store => (store, fs)
    | none =>
        ([], { dataFile := none, quarantine := (now, raw) :: fs.quarantine })

/-- C7: load_data returns the empty store when no snapshot exists; on an
unreadable or unparsable snapshot it returns the empty store after
moving the snapshot, byte for byte, to a quarantine entry stamped with
the current time (distinct capture times give distinct quarantine
names); a parsable snapshot is returned as the store with the
filesystem untouched, and every case returns normally. -/
theorem c7_load_recovery (parse : String → Option Store) (now : Int)
    (fs : FileSys) :
    (fs.dataFile = none → load_data parse now fs = ([], fs)) ∧
    (∀ raw, fs.dataFile = some raw → parse raw = none →
      (load_data parse now fs).1 = [] ∧
      (load_data parse now fs).2.dataFile = none ∧
      (load_data parse now fs).2.quarantine = (now, raw) :: fs.quarantine) ∧
    (∀ raw store, fs.dataFile = some raw → parse raw = some store →
      load_data parse now fs = (store, fs)) := by
  refine ⟨?_, ?_, ?_⟩
  · intro hnone
    simp [load_data, hnone]
  · intro raw hsome hbad
    simp [load_data, hsome, hbad]
  · intro raw store hsome hok
    simp [load_data, hsome, hok]

/-- Witness for c7_load_recovery: a snapshot that fails to parse is
quarantined with its original text and the empty store is returned. -/
theorem c7_load_recovery_witness :
    (load_data (fun _ => none) 5 ⟨some "bad", []⟩).1 = [] ∧
    (load_data (fun _ => none) 5 ⟨some "bad", []⟩).2.quarantine
      = [((5 : Int), "bad")] := by
  have h := (c7_load_recovery (fun _ => none) 5 ⟨some "bad", []⟩).2.1
    "bad" rfl rfl
  exact ⟨h.1, h.2.2⟩

/-! ### Leaderboard (bot_script.py lines 386-438) -/

/-- Stable descending insertion: x is placed before the first element
whose key does not exceed the key of x, so equal keys keep the earlier
element first. -/
def insertDesc {α : Type} (key : α → Int) (x : α) : List α → List α
  | [] => [x]
  | y :: ys => if key y ≤ key x then x :: y :: ys else y :: insertDesc key x ys

/-- Stable descending sort by an integer key: the meaning of Python's
sorted(items, key, reverse:=True), which is stable with equal elements
kept in original order. -/
def sortDesc {α : Type} (key : α → Int) : List α → List α
  | [] => []
  | x :: xs => insertDesc key x (sortDesc key xs)

lemma insertDesc_perm {α : Type} (key : α → Int) (x : α) (l : List α) :
    (insertDesc key x l).Perm (x :: l) := by
  induction l with
  | nil => simp [insertDesc]
  | cons y ys ih =>
    simp only [insertDesc]
    split
    · exact List.Perm.refl _
    · exact (ih.cons y).trans (List.Perm.swap x y ys)

lemma sortDesc_perm {α : Type} (key : α → Int) (l : List α) :
    (sortDesc key l).Perm l := by
  induction l with
  | nil => simp [sortDesc]
  | cons x xs ih =>
    exact (insertDesc_perm key x (sortDesc key xs)).trans (ih.cons x)

lemma insertDesc_pairwise {α : Type} {key : α → Int} {x : α} {l : List α}
    (h : l.Pairwise (fun a b => key b ≤ key a)) :
    (insertDesc key x l).Pairwise (fun a b => key b ≤ key a) := by
  induction l with
  | nil => simp [insertDesc]
  | cons y ys ih =>
    rw [List.pairwise_cons] at h
    obtain ⟨hy, hys⟩ := h
    simp only [insertDesc]
    split
    · rename_i hxy
      rw [List.pairwise_cons]
      refine ⟨?_, List.pairwise_cons.mpr ⟨hy, hys⟩⟩
      intro b hb
      rcases List.mem_cons.mp hb with rfl | hb'
      · exact hxy
      · exact le_trans (hy b hb') hxy
    · rename_i hxy
      rw [List.pairwise_cons]
      refine ⟨?_, ih hys⟩
      intro b hb
      have hmem := (insertDesc_perm key x ys).mem_iff.mp hb
      rcases List.mem_cons.mp hmem with rfl | hb'
      · exact le_of_not_le hxy
      · exact hy b hb'

lemma sortDesc_pairwise {α : Type} (key : α → Int) (l : List α) :
    (sortDesc key l).Pairwise (fun a b => key b ≤ key a) := by
  induction l with
  | nil => simp [sortDesc]
  | cons x xs ih =>
    exact insertDesc_pairwise ih

lemma insertDesc_filter {α : Type} (key : α → Int) (x : α) (l : List α)
    (k : Int) :
    (insertDesc key x l).filter (fun a => key a == k)
      = if key x == k then x :: l.filter (fun a => key a == k)
        else l.filter (fun a => key a == k) := by
  induction l with
  | nil =>
    simp only [insertDesc]
    by_cases hx : (key x == k) = true <;> simp [List.filter_cons, hx]
  | cons y ys ih =>
    simp only [insertDesc]
    split
    · rename_i hxy
      by_cases hx : (key x == k) = true <;>
        simp [List.filter_cons, hx]
    · rename_i hxy
      by_cases hx : (key x == k) = true
      · have hxk : key x = k := by simpa using hx
        by_cases hyk : (key y == k) = true
        · have hyy : key y = k := by simpa using hyk
          exact absurd (le_of_eq (hyy.trans hxk.symm)) hxy
        · simp [List.filter_cons, hx, hyk, ih]
      · by_cases hyk : (key y == k) = true <;>
          simp [List.filter_cons, hx, hyk, ih]

/-- Stability of the sort: for each key value, the elements carrying it
appear in the sorted list in their original order. -/
lemma sortDesc_filter {α : Type} (key : α → Int) (l : List α) (k : Int) :
    (sortDesc key l).filter (fun a => key a == k)
      = l.filter (fun a => key a == k) := by
  induction l with
  | nil => rfl
  | cons x xs ih =>
    simp only [sortDesc]
    rw [insertDesc_filter]
    by_cases hx : (key x == k) = true <;>
      simp [List.filter_cons, hx, ih]

/-- The metric read by the ranking for a normalized category (money and
level use the field of that name, everything else reaching the final
branch reads total_online). -/
def sortKeyOf (category : String) (u : UserRecord) : Int :=
  if category = "money" then u.money
  else if category = "level" then u.level
  else u.total_online

/-- Lines 393-395: an unknown category falls back to money. -/
def normalizeCategory (category : String) : String :=
  if category = "money" ∨ category = "level" ∨ category = "online" then
    category
  else "money"

/-- The ranking of lines 397-415: a stable descending sort of the whole
store by the chosen metric, truncated to the first 10 entries. -/
def leaderboard (store : Store) (category : String) :
    List (String × UserRecord) :=
  (sortDesc (fun p => sortKeyOf (normalizeCategory category) p.2) store).take 10

/-- The leaderboard command as a state transformer: it only reads the
store (no ensure_user_data, no field writes, no save), returning it
unchanged next to the ranking. -/
def leaderboard_cmd (store : Store) (category : String) :
    Store × List (String × UserRecord) :=
  (store, leaderboard store category)

/-- C8: the leaderboard is a descending stable sort of all records by
the chosen metric (ties keep insertion order), truncated to at most 10
entries; an unknown metric falls back to money; and the command leaves
the store unchanged. -/
theorem c8_leaderboard (store : Store) (category : String) :
    List.Pairwise
      (fun a b => sortKeyOf (normalizeCategory category) b.2
          ≤ sortKeyOf (normalizeCategory category) a.2)
      (leaderboard store category) ∧
    (sortDesc (fun p => sortKeyOf (normalizeCategory category) p.2)
        store).Perm store ∧
    (∀ k : Int,
      (sortDesc (fun p => sortKeyOf (normalizeCategory category) p.2)
          store).filter
          (fun p => sortKeyOf (normalizeCategory category) p.2 == k)
        = store.filter
            (fun p => sortKeyOf (normalizeCategory category) p.2 == k)) ∧
    leaderboard store category
      = (sortDesc (fun p => sortKeyOf (normalizeCategory category) p.2)
          store).take 10 ∧
    (leaderboard store category).length ≤ 10 ∧
    (¬ (category = "money" ∨ category = "level" ∨ category = "online") →
      leaderboard store category = leaderboard store "money") ∧
    leaderboard_cmd store category = (store, leaderboard store category) := by
  refine ⟨?_, sortDesc_perm _ _, fun k => sortDesc_filter _ _ _, rfl, ?_, ?_, rfl⟩
  · exact List.Pairwise.sublist (List.take_sublist 10 _) (sortDesc_pairwise _ _)
  · exact List.length_take_le 10 _
  · intro h
    simp [leaderboard, normalizeCategory, h]

/-- The three-user store of the ranking example: money 50, 200, 200 in
insertion order A, B, C. -/
def exampleStore : Store :=
  [("A", { baseUser with money := 50 }),
   ("B", { baseUser with money := 200 }),
   ("C", { baseUser with money := 200 })]

/-- Witness for c8_leaderboard: the unknown category gold ranks like
money, and on the example store the two 200-money users stay in
insertion order ahead of the 50-money user. -/
theorem c8_leaderboard_witness :
    leaderboard exampleStore "gold" = leaderboard exampleStore "money" ∧
    (leaderboard exampleStore "money").map Prod.fst = ["B", "C", "A"] := by
  refine ⟨(c8_leaderboard exampleStore "gold").2.2.2.2.2.1 (by decide), ?_⟩
  decide
